import Mathlib

/-!
Verification of the scheduling core of `auto-selfcontrol.py`.

The embedding models the pure scheduling computations of the script:
`is_schedule_active`, `get_end_date_of_schedule`, `get_schedule_weekdays`,
the trigger expansion of `get_launchscript_startintervals`, and the
first-active selection performed in `run`.

A civil local date-time (the value of `datetime.today()`) is modelled by
`Instant`: calendar fields at one-second resolution plus the ISO weekday
(1 = Monday .. 7 = Sunday) that `datetime.isoweekday()` reports for that
date.  All datetime comparisons in the script compare values sharing the
same calendar date, ordered lexicographically on their fields, exactly as
Python orders `datetime` values.  The sub-second (microsecond) component of
`datetime.today()` is elided: the script's comparisons at distinct
(h, min, s) triples are unaffected, and the second-boundary claims are
stated at whole-second instants.
-/

structure Instant where
  year : Nat
  month : Nat
  day : Nat
  hour : Nat
  minute : Nat
  second : Nat
  isoWeekday : Nat
deriving DecidableEq

/-- A block schedule, as read from the configuration: keys `start-hour`,
`start-minute`, `end-hour`, `end-minute`, optional `weekday`, and
`block-as-whitelist` (defaulting to `false`, passed through opaquely). -/
structure Schedule where
  startHour : Nat
  startMinute : Nat
  endHour : Nat
  endMinute : Nat
  weekday : Option Int
  blockAsWhitelist : Bool
deriving DecidableEq

/-- Seconds since local midnight of an instant. -/
def Instant.timeOfDay (i : Instant) : Nat :=
  i.hour * 3600 + i.minute * 60 + i.second

/-- Python's ordering on `datetime` values: lexicographic on
(year, month, day, hour, minute, second). -/
def Instant.le (a b : Instant) : Bool :=
  if a.year ≠ b.year then decide (a.year < b.year)
  else if a.month ≠ b.month then decide (a.month < b.month)
  else if a.day ≠ b.day then decide (a.day < b.day)
  else if a.hour ≠ b.hour then decide (a.hour < b.hour)
  else if a.minute ≠ b.minute then decide (a.minute < b.minute)
  else decide (a.second ≤ b.second)

/-- `datetime(currenttime.year, currenttime.month, currenttime.day,
schedule["start-hour"], schedule["start-minute"])` from
`is_schedule_active`.  Its date equals `now`'s date, so its ISO weekday is
`now`'s. -/
def startInstant (s : Schedule) (now : Instant) : Instant :=
  ⟨now.year, now.month, now.day, s.startHour, s.startMinute, 0, now.isoWeekday⟩

/-- `datetime(currenttime.year, currenttime.month, currenttime.day,
schedule["end-hour"], schedule["end-minute"])` from `is_schedule_active`
and `get_end_date_of_schedule`. -/
def endInstant (s : Schedule) (now : Instant) : Instant :=
  ⟨now.year, now.month, now.day, s.endHour, s.endMinute, 0, now.isoWeekday⟩

/-- Seconds since midnight of the schedule's start time. -/
def startTOD (s : Schedule) : Nat := s.startHour * 3600 + s.startMinute * 60

/-- Seconds since midnight of the schedule's end time. -/
def endTOD (s : Schedule) : Nat := s.endHour * 3600 + s.endMinute * 60

/-- `(endtime - starttime).total_seconds()`: both datetimes share the same
calendar date, so the difference is the time-of-day difference. -/
def dTotalSeconds (s : Schedule) : Int :=
  (endTOD s : Int) - (startTOD s : Int)

/-- `(endtime - starttime).days`: Python's `timedelta` normalises with
`days = floor(total_seconds / 86400)`. -/
def dDays (s : Schedule) : Int := Int.fdiv (dTotalSeconds s) 86400

/-- `currenttime.isoweekday() % 7 - weekday % 7` (Python `%` on a positive
modulus agrees with `Int.emod`). -/
def weekdayDiff (todayIso : Nat) (w : Int) : Int :=
  (todayIso : Int) % 7 - w % 7

/-- The body of the `for weekday in get_schedule_weekdays(schedule)` loop
in `is_schedule_active`: the value `result` computed for one weekday. -/
def activeForWeekday (s : Schedule) (now : Instant) (w : Int) : Bool :=
  if weekdayDiff now.isoWeekday w = 0 then
    if dDays s = 0 then
      Instant.le (startInstant s now) now && Instant.le now (endInstant s now)
    else
      Instant.le (startInstant s now) now
  else if weekdayDiff now.isoWeekday w = 1 ∨ weekdayDiff now.isoWeekday w = -6 then
    decide (dDays s ≠ 0) && Instant.le now (endInstant s now)
  else
    false

/-- `get_schedule_weekdays`: `[schedule["weekday"]]` when the key is set,
otherwise `range(1, 8)`. -/
def scheduleWeekdays (s : Schedule) : List Int :=
  match s.weekday with
  | some w => [w]
  | none => [1, 2, 3, 4, 5, 6, 7]

/-- `is_schedule_active(schedule)` with the clock reading `now` passed
explicitly: the loop returns on the first weekday whose `result` is true
and returns `False` after the loop, i.e. a disjunction over the weekday
list. -/
def isScheduleActive (s : Schedule) (now : Instant) : Bool :=
  (scheduleWeekdays s).any fun w => activeForWeekday s now w

/-- The schedule selection in `run`:
`next(s for s in config["block-schedules"] if is_schedule_active(s))`,
with `StopIteration` mapped to the normal outcome `none`. -/
def selectActive (l : List Schedule) (now : Instant) : Option Schedule :=
  l.find? fun s => isScheduleActive s now

/-- Decimal digits of `n`, most significant first, computed with explicit
fuel (`n + 1` calls always suffice, see `decimalString`).  Mirrors the
rendering `str(n)` of a nonnegative Python int. -/
def natDigitsAux : Nat → Nat → List Char
  | 0, _ => []
  | fuel + 1, n =>
    if n < 10 then [Nat.digitChar n]
    else natDigitsAux fuel (n / 10) ++ [Nat.digitChar (n % 10)]

/-- `str(n)` for a nonnegative int `n`. -/
def decimalString (n : Nat) : String := String.mk (natDigitsAux (n + 1) n)

/-- Python's `str.zfill(width)` on a digits-only string: left-pad with
zeros to at least `width` characters. -/
def zfill (width : Nat) (s : String) : String :=
  if width ≤ s.length then s
  else String.mk (List.replicate (width - s.length) '0') ++ s

/-- `int(abs(utc_offset * 100))` where `utc_offset` is the local-UTC
offset in hours (`offsetSeconds / 3600`): the magnitude in hundredths of
an hour, truncated (floored). -/
def utcOffsetHundredths (offsetSeconds : Int) : Nat :=
  offsetSeconds.natAbs * 100 / 3600

/-- `"+" if utc_offset >= 0 else "-"`. -/
def offsetSign (offsetSeconds : Int) : String :=
  if 0 ≤ offsetSeconds then "+" else "-"

/-- `strftime("%Y-%m-%dT%H:%M:%S")`: zero-padded calendar fields. -/
def strftimeISO (i : Instant) : String :=
  zfill 4 (decimalString i.year) ++ "-" ++ zfill 2 (decimalString i.month) ++ "-" ++
    zfill 2 (decimalString i.day) ++ "T" ++ zfill 2 (decimalString i.hour) ++ ":" ++
    zfill 2 (decimalString i.minute) ++ ":" ++ zfill 2 (decimalString i.second)

/-- `get_end_date_of_schedule(schedule)` with the clock reading `now` and
the local-UTC offset (in seconds, the value of
`(datetime.fromtimestamp(ts) - datetime.utcfromtimestamp(ts)).total_seconds()`)
passed explicitly. -/
def getEndDateOfSchedule (s : Schedule) (now : Instant) (offsetSeconds : Int) : String :=
  strftimeISO (endInstant s now) ++ offsetSign offsetSeconds ++
    zfill 4 (decimalString (utcOffsetHundredths offsetSeconds))

/-- Modelled from the spec's words for claim C4 only: the offset field
"rounded to the nearest hundredth" of an hour (half rounding up), to be
compared with the truncating `utcOffsetHundredths` the code computes. -/
def claimRoundedHundredths (offsetSeconds : Int) : Nat :=
  (offsetSeconds.natAbs * 100 + 1800) / 3600

/-- One tuple of `get_launchscript_startintervals` for one weekday of one
schedule: (Weekday, start hour, start minute). -/
def expandSchedule (s : Schedule) : List (Int × Nat × Nat) :=
  (scheduleWeekdays s).map fun w => (w, s.startHour, s.startMinute)

/-- `get_launchscript_startintervals(config)`: schedules in configured
order, each expanded over its weekdays. -/
def expandAll (l : List Schedule) : List (Int × Nat × Nat) :=
  l.flatMap expandSchedule

/-- Gregorian leap-year rule, as Python's `calendar`/`datetime` use it. -/
def isLeapYear (y : Nat) : Bool :=
  y % 4 == 0 && (y % 100 != 0 || y % 400 == 0)

def daysInMonth (y mo : Nat) : Nat :=
  if mo = 2 then (if isLeapYear y then 29 else 28)
  else if mo = 4 ∨ mo = 6 ∨ mo = 9 ∨ mo = 11 then 30
  else 31

/-- The value of `datetime.today()` is always a valid civil datetime with
a consistent ISO weekday; the bounds Python's `datetime` guarantees. -/
def ValidInstant (i : Instant) : Prop :=
  1 ≤ i.year ∧ i.year ≤ 9999 ∧ 1 ≤ i.month ∧ i.month ≤ 12 ∧
    1 ≤ i.day ∧ i.day ≤ daysInMonth i.year i.month ∧
    i.hour ≤ 23 ∧ i.minute ≤ 59 ∧ i.second ≤ 59 ∧
    1 ≤ i.isoWeekday ∧ i.isoWeekday ≤ 7

instance (i : Instant) : Decidable (ValidInstant i) := by
  unfold ValidInstant; infer_instance

/-- Python's `datetime(year, month, day, hour, minute)` constructor:
returns a datetime when all fields are in range and raises `ValueError`
(modelled as `none`) otherwise. -/
def mkDatetime? (y mo d h mi sec wd : Nat) : Option Instant :=
  if 1 ≤ y ∧ y ≤ 9999 ∧ 1 ≤ mo ∧ mo ≤ 12 ∧ 1 ≤ d ∧ d ≤ daysInMonth y mo ∧
      h ≤ 23 ∧ mi ≤ 59 ∧ sec ≤ 59 then
    some ⟨y, mo, d, h, mi, sec, wd⟩
  else
    none

/-- `is_schedule_active` with the fallibility of its two `datetime(...)`
constructions made explicit: `none` models a raised `ValueError`; the rest
of the function (integer arithmetic, comparisons, list traversal) is
total. -/
def isScheduleActiveChecked (s : Schedule) (now : Instant) : Option Bool :=
  match mkDatetime? now.year now.month now.day s.startHour s.startMinute 0 now.isoWeekday,
      mkDatetime? now.year now.month now.day s.endHour s.endMinute 0 now.isoWeekday with
  | some _, some _ => some (isScheduleActive s now)
  | _, _ => none

/-- `get_end_date_of_schedule` with the fallibility of its `datetime(...)`
construction made explicit. -/
def getEndDateOfScheduleChecked (s : Schedule) (now : Instant) (offsetSeconds : Int) :
    Option String :=
  match mkDatetime? now.year now.month now.day s.endHour s.endMinute 0 now.isoWeekday with
  | some _ => some (getEndDateOfSchedule s now offsetSeconds)
  | none => none

/-- The selection loop of `run` with its clock dependence made explicit:
each call to `is_schedule_active` performs its own `datetime.today()`
read, modelled as consuming the next reading of the clock stream `clk`
starting at index `i`.  Returns the selected schedule and the index after
the last reading consumed. -/
def selectActiveClk : List Schedule → (Nat → Instant) → Nat → Option Schedule × Nat
  | [], _, i => (none, i)
  | s :: rest, clk, i =>
    if isScheduleActive s (clk i) then (some s, i + 1)
    else selectActiveClk rest clk (i + 1)

-- Concrete values used by witnesses and counterexamples.

/-- Same-day window 09:00-17:00 on Monday. -/
def schedMon917 : Schedule := ⟨9, 0, 17, 0, some 1, false⟩

/-- Same-day window 09:00-17:00 on Tuesday. -/
def schedTue917 : Schedule := ⟨9, 0, 17, 0, some 2, false⟩

/-- Midnight-crossing window 22:00-02:00 on Friday. -/
def schedFri2202 : Schedule := ⟨22, 0, 2, 0, some 5, false⟩

/-- Midnight-crossing window 22:00-02:00 on Sunday (weekday 7). -/
def schedSun2202 : Schedule := ⟨22, 0, 2, 0, some 7, false⟩

/-- Monday 2026-10-12 08:00:00. -/
def tMon0800 : Instant := ⟨2026, 10, 12, 8, 0, 0, 1⟩

/-- Monday 2026-10-12 10:00:00. -/
def tMon1000 : Instant := ⟨2026, 10, 12, 10, 0, 0, 1⟩

/-- Monday 2026-10-12 23:30:00. -/
def tMon2330 : Instant := ⟨2026, 10, 12, 23, 30, 0, 1⟩

/-- Monday 2026-10-12 01:00:00. -/
def tMon0100 : Instant := ⟨2026, 10, 12, 1, 0, 0, 1⟩

/-- Friday 2026-10-16 23:00:00. -/
def tFri2300 : Instant := ⟨2026, 10, 16, 23, 0, 0, 5⟩

/-- Saturday 2026-10-17 01:00:00. -/
def tSat0100 : Instant := ⟨2026, 10, 17, 1, 0, 0, 6⟩

/-- Saturday 2026-10-17 03:00:00. -/
def tSat0300 : Instant := ⟨2026, 10, 17, 3, 0, 0, 6⟩

/-- A clock stream whose first reading is Monday 08:00 and whose later
readings are Monday 10:00 (the evaluation pass straddles a clock
advance). -/
def clkAdvancing : Nat → Instant := fun n => if n = 0 then tMon0800 else tMon1000

/-- A clock stream frozen at Monday 08:00. -/
def clkFrozen : Nat → Instant := fun _ => tMon0800

-- Helper lemmas.

theorem le_same_date (a b : Instant) (hy : a.year = b.year) (hmo : a.month = b.month)
    (hd : a.day = b.day) (ham : a.minute ≤ 59) (has : a.second ≤ 59)
    (hbm : b.minute ≤ 59) (hbs : b.second ≤ 59) :
    Instant.le a b = decide (a.timeOfDay ≤ b.timeOfDay) := by
  unfold Instant.le Instant.timeOfDay
  split_ifs <;> rw [decide_eq_decide] <;> omega

theorem startInstant_timeOfDay (s : Schedule) (now : Instant) :
    (startInstant s now).timeOfDay = startTOD s := by
  simp [Instant.timeOfDay, startInstant, startTOD]

theorem endInstant_timeOfDay (s : Schedule) (now : Instant) :
    (endInstant s now).timeOfDay = endTOD s := by
  simp [Instant.timeOfDay, endInstant, endTOD]

theorem dDays_eq (s : Schedule) (h1 : s.startHour ≤ 23) (h2 : s.startMinute ≤ 59)
    (h3 : s.endHour ≤ 23) (h4 : s.endMinute ≤ 59) :
    dDays s = if startTOD s ≤ endTOD s then 0 else -1 := by
  unfold dDays dTotalSeconds startTOD endTOD at *
  rw [Int.fdiv_eq_ediv _ (by norm_num)]
  split_ifs with h <;> omega

theorem activeForWeekday_true_iff (s : Schedule) (now : Instant) (w : Int)
    (h1 : s.startHour ≤ 23) (h2 : s.startMinute ≤ 59) (h3 : s.endHour ≤ 23)
    (h4 : s.endMinute ≤ 59) (h5 : now.minute ≤ 59) (h6 : now.second ≤ 59) :
    activeForWeekday s now w = true ↔
      (((now.isoWeekday : Int) % 7 = w % 7 ∧ startTOD s ≤ endTOD s ∧
          startTOD s ≤ now.timeOfDay ∧ now.timeOfDay ≤ endTOD s) ∨
        ((now.isoWeekday : Int) % 7 = w % 7 ∧ endTOD s < startTOD s ∧
          startTOD s ≤ now.timeOfDay) ∨
        (((now.isoWeekday : Int) % 7 - w % 7 = 1 ∨ (now.isoWeekday : Int) % 7 - w % 7 = -6) ∧
          endTOD s < startTOD s ∧ now.timeOfDay ≤ endTOD s)) := by
  have hst : Instant.le (startInstant s now) now = decide (startTOD s ≤ now.timeOfDay) := by
    rw [le_same_date (startInstant s now) now rfl rfl rfl
      (by simp only [startInstant]; omega) (by simp only [startInstant]; omega) h5 h6,
      startInstant_timeOfDay]
  have hen : Instant.le now (endInstant s now) = decide (now.timeOfDay ≤ endTOD s) := by
    rw [le_same_date now (endInstant s now) rfl rfl rfl h5 h6
      (by simp only [endInstant]; omega) (by simp only [endInstant]; omega),
      endInstant_timeOfDay]
  have hdd := dDays_eq s h1 h2 h3 h4
  unfold activeForWeekday weekdayDiff
  rw [hst, hen, hdd]
  by_cases hse : startTOD s ≤ endTOD s
  · simp only [if_pos hse]
    split_ifs <;> simp_all <;> omega
  · simp only [if_neg hse]
    split_ifs <;> simp_all <;> omega

theorem isScheduleActive_single (s : Schedule) (now : Instant) (w : Int)
    (hw : s.weekday = some w) :
    isScheduleActive s now = activeForWeekday s now w := by
  simp [isScheduleActive, scheduleWeekdays, hw]

/-- Monday 2026-10-12 17:00:00 (exact end instant of a 09:00-17:00 window). -/
def tMon1700 : Instant := ⟨2026, 10, 12, 17, 0, 0, 1⟩

/-- Monday 2026-10-12 17:00:30 (30 seconds past the end minute's start). -/
def tMon170030 : Instant := ⟨2026, 10, 12, 17, 0, 30, 1⟩

/-- Monday 2026-10-12 09:00:30 (30 seconds into the start minute). -/
def tMon090030 : Instant := ⟨2026, 10, 12, 9, 0, 30, 1⟩

/-- Claim C1: for a schedule whose window crosses midnight (naive same-day
end earlier than start) on a single weekday `w`, `is_schedule_active` is
true when `now` is on weekday `w` at or after the start time (the
diff = 0 branch), true when `now` is on the following weekday at or
before the end time (the diff = 1 / diff = -6 branch), and false on the
following weekday after the end time. -/
theorem claim1_midnight_crossing_activation (s : Schedule) (now : Instant) (w : Int)
    (h1 : s.startHour ≤ 23) (h2 : s.startMinute ≤ 59) (h3 : s.endHour ≤ 23)
    (h4 : s.endMinute ≤ 59) (hw : s.weekday = some w) (hw1 : 1 ≤ w) (hw7 : w ≤ 7)
    (hcross : endTOD s < startTOD s)
    (hn1 : 1 ≤ now.isoWeekday) (hn7 : now.isoWeekday ≤ 7)
    (h5 : now.minute ≤ 59) (h6 : now.second ≤ 59) :
    (((now.isoWeekday : Int) = w → startTOD s ≤ now.timeOfDay →
        isScheduleActive s now = true) ∧
      ((now.isoWeekday : Int) = w % 7 + 1 → now.timeOfDay ≤ endTOD s →
        isScheduleActive s now = true) ∧
      ((now.isoWeekday : Int) = w % 7 + 1 → endTOD s < now.timeOfDay →
        isScheduleActive s now = false)) := by
  rw [isScheduleActive_single s now w hw]
  have hiff := activeForWeekday_true_iff s now w h1 h2 h3 h4 h5 h6
  refine ⟨?_, ?_, ?_⟩
  · intro ha hb; rw [hiff]; omega
  · intro ha hb; rw [hiff]; omega
  · intro ha hb
    cases hres : activeForWeekday s now w
    · rfl
    · exact absurd (hiff.mp hres) (by omega)

/-- Witness for C1: the 22:00-02:00 Friday schedule is active at Friday
23:00 and Saturday 01:00 and inactive at Saturday 03:00. -/
theorem claim1_witness :
    isScheduleActive schedFri2202 tFri2300 = true ∧
      isScheduleActive schedFri2202 tSat0100 = true ∧
      isScheduleActive schedFri2202 tSat0300 = false := by
  refine ⟨?_, ?_, ?_⟩
  · exact (claim1_midnight_crossing_activation schedFri2202 tFri2300 5 (by decide) (by decide)
      (by decide) (by decide) rfl (by decide) (by decide) (by decide) (by decide) (by decide)
      (by decide) (by decide)).1 (by decide) (by decide)
  · exact (claim1_midnight_crossing_activation schedFri2202 tSat0100 5 (by decide) (by decide)
      (by decide) (by decide) rfl (by decide) (by decide) (by decide) (by decide) (by decide)
      (by decide) (by decide)).2.1 (by decide) (by decide)
  · exact (claim1_midnight_crossing_activation schedFri2202 tSat0300 5 (by decide) (by decide)
      (by decide) (by decide) rfl (by decide) (by decide) (by decide) (by decide) (by decide)
      (by decide) (by decide)).2.2 (by decide) (by decide)

/-- Claim C2: for a schedule whose window does not cross midnight on a
single weekday `w`, `is_schedule_active` is true exactly when `now` falls
on weekday `w` and start ≤ now ≤ end, both bounds inclusive. -/
theorem claim2_same_day_window (s : Schedule) (now : Instant) (w : Int)
    (h1 : s.startHour ≤ 23) (h2 : s.startMinute ≤ 59) (h3 : s.endHour ≤ 23)
    (h4 : s.endMinute ≤ 59) (hw : s.weekday = some w) (hw1 : 1 ≤ w) (hw7 : w ≤ 7)
    (hsame : startTOD s ≤ endTOD s)
    (hn1 : 1 ≤ now.isoWeekday) (hn7 : now.isoWeekday ≤ 7)
    (h5 : now.minute ≤ 59) (h6 : now.second ≤ 59) :
    isScheduleActive s now = true ↔
      ((now.isoWeekday : Int) = w ∧ startTOD s ≤ now.timeOfDay ∧
        now.timeOfDay ≤ endTOD s) := by
  rw [isScheduleActive_single s now w hw,
    activeForWeekday_true_iff s now w h1 h2 h3 h4 h5 h6]
  omega

/-- Witness for C2: the 09:00-17:00 Monday schedule is active at Monday
10:00 and inactive at Monday 08:00. -/
theorem claim2_witness :
    isScheduleActive schedMon917 tMon1000 = true ∧
      isScheduleActive schedMon917 tMon0800 = false := by
  constructor
  · exact (claim2_same_day_window schedMon917 tMon1000 1 (by decide) (by decide) (by decide)
      (by decide) rfl (by decide) (by decide) (by decide) (by decide) (by decide) (by decide)
      (by decide)).mpr (by decide)
  · cases hres : isScheduleActive schedMon917 tMon0800
    · rfl
    · exact absurd ((claim2_same_day_window schedMon917 tMon0800 1 (by decide) (by decide)
        (by decide) (by decide) rfl (by decide) (by decide) (by decide) (by decide) (by decide)
        (by decide) (by decide)).mp hres) (by decide)

/-- Claim C5: a schedule encoded with weekday 7 (Sunday) behaves
identically to one encoded with weekday 0 for every `now` (the evaluator
applies the same modulo-7 arithmetic to every weekday, with no special
case for Sunday), and the 22:00-02:00 Sunday schedule is active on Monday
01:00 through the branch guarded by diff = 1 or diff = -6 (the actual
diff value there being 1). -/
theorem claim5_weekday7_equals_weekday0 :
    (∀ (sh sm eh em : Nat) (b : Bool) (now : Instant),
        isScheduleActive ⟨sh, sm, eh, em, some 7, b⟩ now =
          isScheduleActive ⟨sh, sm, eh, em, some 0, b⟩ now) ∧
      isScheduleActive schedSun2202 tMon0100 = true ∧
      weekdayDiff tMon0100.isoWeekday 7 ≠ 0 ∧
      (weekdayDiff tMon0100.isoWeekday 7 = 1 ∨ weekdayDiff tMon0100.isoWeekday 7 = -6) := by
  refine ⟨?_, by decide, by decide, by decide⟩
  intro sh sm eh em b now
  simp only [isScheduleActive, scheduleWeekdays, List.any_cons, List.any_nil, Bool.or_false,
    activeForWeekday, weekdayDiff, dDays, dTotalSeconds, startTOD, endTOD, startInstant,
    endInstant]
  norm_num

/-- Claim C10: for a same-day window on weekday `w`, `is_schedule_active`
compares `now` at sub-minute resolution against bounds whose seconds are
zero: at the end minute it is active exactly at second 0, and at the
start minute every second is active as long as `now` is still within the
window. -/
theorem claim10_subminute_resolution (s : Schedule) (now : Instant) (w : Int)
    (h1 : s.startHour ≤ 23) (h2 : s.startMinute ≤ 59) (h3 : s.endHour ≤ 23)
    (h4 : s.endMinute ≤ 59) (hw : s.weekday = some w) (hw1 : 1 ≤ w) (hw7 : w ≤ 7)
    (hsame : startTOD s ≤ endTOD s)
    (hn1 : 1 ≤ now.isoWeekday) (hn7 : now.isoWeekday ≤ 7)
    (h5 : now.minute ≤ 59) (h6 : now.second ≤ 59) :
    (((now.isoWeekday : Int) = w → now.hour = s.endHour → now.minute = s.endMinute →
        (isScheduleActive s now = true ↔ now.second = 0)) ∧
      ((now.isoWeekday : Int) = w → now.hour = s.startHour → now.minute = s.startMinute →
        now.timeOfDay ≤ endTOD s → isScheduleActive s now = true)) := by
  rw [isScheduleActive_single s now w hw]
  have hiff := activeForWeekday_true_iff s now w h1 h2 h3 h4 h5 h6
  unfold Instant.timeOfDay startTOD endTOD at *
  constructor
  · intro ha hb hc
    rw [hiff]; omega
  · intro ha hb hc hd
    rw [hiff]; omega

/-- Witness for C10: the 09:00-17:00 Monday schedule is active at Monday
17:00:00, inactive at Monday 17:00:30, and active at Monday 09:00:30. -/
theorem claim10_witness :
    isScheduleActive schedMon917 tMon1700 = true ∧
      isScheduleActive schedMon917 tMon170030 = false ∧
      isScheduleActive schedMon917 tMon090030 = true := by
  refine ⟨?_, ?_, ?_⟩
  · exact ((claim10_subminute_resolution schedMon917 tMon1700 1 (by decide) (by decide)
      (by decide) (by decide) rfl (by decide) (by decide) (by decide) (by decide) (by decide)
      (by decide) (by decide)).1 (by decide) rfl rfl).mpr rfl
  · cases hres : isScheduleActive schedMon917 tMon170030
    · rfl
    · exact absurd (((claim10_subminute_resolution schedMon917 tMon170030 1 (by decide)
        (by decide) (by decide) (by decide) rfl (by decide) (by decide) (by decide) (by decide)
        (by decide) (by decide) (by decide)).1 (by decide) rfl rfl).mp hres) (by decide)
  · exact (claim10_subminute_resolution schedMon917 tMon090030 1 (by decide) (by decide)
      (by decide) (by decide) rfl (by decide) (by decide) (by decide) (by decide) (by decide)
      (by decide) (by decide)).2 (by decide) rfl rfl (by decide)

-- String-rendering lemmas.

theorem stringMk_length (l : List Char) : (String.mk l).length = l.length := rfl

theorem stringMk_data (l : List Char) : (String.mk l).data = l := rfl

theorem natDigitsAux_fuel_irrel : ∀ f g n, n < f → n < g →
    natDigitsAux f n = natDigitsAux g n := by
  intro f
  induction f with
  | zero => intro g n hf; exact absurd hf (Nat.not_lt_zero n)
  | succ f ih =>
    intro g n hf hg
    cases g with
    | zero => exact absurd hg (Nat.not_lt_zero n)
    | succ g =>
      simp only [natDigitsAux]
      by_cases h10 : n < 10
      · simp [h10]
      · have hd : n / 10 < n := Nat.div_lt_self (by omega) (by omega)
        simp only [if_neg h10]
        rw [ih g (n / 10) (by omega) (by omega)]

theorem decimalString_length_le : ∀ k n, n < 10 ^ (k + 1) →
    (decimalString n).length ≤ k + 1 := by
  intro k
  induction k with
  | zero =>
    intro n hn
    have h10 : n < 10 := by simpa using hn
    simp [decimalString, natDigitsAux, h10, stringMk_length]
  | succ k ih =>
    intro n hn
    by_cases h10 : n < 10
    · simp [decimalString, natDigitsAux, h10, stringMk_length]
    · have hd : n / 10 < n := Nat.div_lt_self (by omega) (by omega)
      have hp : 10 ^ (k + 2) = 10 ^ (k + 1) * 10 := by ring
      have hq : n / 10 < 10 ^ (k + 1) := by omega
      have hih := ih (n / 10) hq
      simp only [decimalString, stringMk_length] at hih ⊢
      simp only [natDigitsAux, if_neg h10]
      rw [natDigitsAux_fuel_irrel n (n / 10 + 1) (n / 10) hd (Nat.lt_succ_self _),
        List.length_append]
      simp only [List.length_singleton]
      omega

theorem digitChar_isDigit : ∀ d, d < 10 → (Nat.digitChar d).isDigit = true := by decide

theorem natDigitsAux_digits : ∀ fuel n, n < fuel →
    ∀ c ∈ natDigitsAux fuel n, c.isDigit = true := by
  intro fuel
  induction fuel with
  | zero => intro n hf; exact absurd hf (Nat.not_lt_zero n)
  | succ f ih =>
    intro n hf c hc
    by_cases h10 : n < 10
    · simp only [natDigitsAux, if_pos h10, List.mem_singleton] at hc
      subst hc; exact digitChar_isDigit n h10
    · have hd : n / 10 < n := Nat.div_lt_self (by omega) (by omega)
      simp only [natDigitsAux, if_neg h10, List.mem_append, List.mem_singleton] at hc
      rcases hc with hc | hc
      · exact ih (n / 10) (by omega) c hc
      · subst hc; exact digitChar_isDigit _ (Nat.mod_lt n (by omega))

theorem decimalString_digits (n : Nat) : ∀ c ∈ (decimalString n).data, c.isDigit = true :=
  natDigitsAux_digits (n + 1) n (Nat.lt_succ_self n)

theorem zfill_length_of_le (w : Nat) (s : String) (h : s.length ≤ w) :
    (zfill w s).length = w := by
  unfold zfill
  split_ifs with hc
  · omega
  · rw [String.length_append, stringMk_length, List.length_replicate]
    omega

theorem zfill_digits (w : Nat) (s : String) (h : ∀ c ∈ s.data, c.isDigit = true) :
    ∀ c ∈ (zfill w s).data, c.isDigit = true := by
  unfold zfill
  split_ifs with hc
  · exact h
  · intro c hcm
    rw [String.data_append, stringMk_data] at hcm
    rcases List.mem_append.mp hcm with hm | hm
    · rw [List.eq_of_mem_replicate hm]; decide
    · exact h c hm

theorem offsetSign_length (off : Int) : (offsetSign off).length = 1 := by
  unfold offsetSign; split_ifs <;> rfl

theorem strftimeISO_length (i : Instant) (hy : i.year ≤ 9999) (hmo : i.month ≤ 12)
    (hd : i.day ≤ 31) (hh : i.hour ≤ 23) (hmi : i.minute ≤ 59) (hs : i.second ≤ 59) :
    (strftimeISO i).length = 19 := by
  have ly : (decimalString i.year).length ≤ 4 :=
    decimalString_length_le 3 i.year (by norm_num; omega)
  have lmo : (decimalString i.month).length ≤ 2 :=
    decimalString_length_le 1 i.month (by norm_num; omega)
  have ld : (decimalString i.day).length ≤ 2 :=
    decimalString_length_le 1 i.day (by norm_num; omega)
  have lh : (decimalString i.hour).length ≤ 2 :=
    decimalString_length_le 1 i.hour (by norm_num; omega)
  have lmi : (decimalString i.minute).length ≤ 2 :=
    decimalString_length_le 1 i.minute (by norm_num; omega)
  have ls : (decimalString i.second).length ≤ 2 :=
    decimalString_length_le 1 i.second (by norm_num; omega)
  simp only [strftimeISO, String.length_append]
  rw [zfill_length_of_le 4 _ ly, zfill_length_of_le 2 _ lmo, zfill_length_of_le 2 _ ld,
    zfill_length_of_le 2 _ lh, zfill_length_of_le 2 _ lmi, zfill_length_of_le 2 _ ls]
  rfl

/-- Claim C3: `get_end_date_of_schedule` anchors the end timestamp to
`now`'s calendar date for every schedule and every `now`, never advancing
it to the next day; consequently for the midnight-crossing 22:00-02:00
schedule at Monday 23:30 the formatted end instant (02:00 of the same
day) is strictly earlier than the window's start instant (22:00). -/
theorem claim3_end_anchored_to_same_day :
    (∀ (s : Schedule) (now : Instant),
        (endInstant s now).year = now.year ∧ (endInstant s now).month = now.month ∧
          (endInstant s now).day = now.day) ∧
      Instant.le (endInstant schedFri2202 tMon2330) (startInstant schedFri2202 tMon2330) = true ∧
      endInstant schedFri2202 tMon2330 ≠ startInstant schedFri2202 tMon2330 ∧
      getEndDateOfSchedule schedFri2202 tMon2330 0 = "2026-10-12T02:00:00+0000" :=
  ⟨fun _ _ => ⟨rfl, rfl, rfl⟩, by decide, by decide, by decide⟩

/-- Counterexample to C4 as stated: at a local-UTC offset of +25 minutes
(1500 seconds, 41.666... hundredths of an hour) the code truncates the
offset field to "0041", while rounding to the nearest hundredth — what
the claim prescribes — yields 42, i.e. "0042". -/
theorem claim4_counterexample :
    getEndDateOfSchedule schedMon917 tMon1000 1500 = "2026-10-12T17:00:00+0041" ∧
      utcOffsetHundredths 1500 = 41 ∧
      claimRoundedHundredths 1500 = 42 ∧
      zfill 4 (decimalString (claimRoundedHundredths 1500)) = "0042" ∧
      utcOffsetHundredths 1500 ≠ claimRoundedHundredths 1500 := by
  refine ⟨by decide, by decide, by decide, by decide, by decide⟩

/-- Claim C4 (amended): for every valid schedule and instant and every
local-UTC offset of magnitude below 100 hours, `get_end_date_of_schedule`
returns a 24-character string: a 19-character `YYYY-MM-DDTHH:MM:SS` part
followed by a 5-character suffix consisting of an explicit sign — `+`
when the offset is non-negative, `-` otherwise — and the offset magnitude
in hundredths of an hour truncated toward zero (not rounded to nearest),
zero-padded to exactly 4 digit characters. -/
theorem claim4_offset_suffix_format (s : Schedule) (now : Instant) (off : Int)
    (hy : now.year ≤ 9999) (hmo : now.month ≤ 12) (hd : now.day ≤ 31)
    (heh : s.endHour ≤ 23) (hem : s.endMinute ≤ 59)
    (hoff : off.natAbs ≤ 359999) :
    (getEndDateOfSchedule s now off).length = 24 ∧
      (getEndDateOfSchedule s now off).data.drop 19 =
        (if 0 ≤ off then '+' else '-') ::
          (zfill 4 (decimalString (utcOffsetHundredths off))).data ∧
      (zfill 4 (decimalString (utcOffsetHundredths off))).length = 4 ∧
      (∀ c ∈ (zfill 4 (decimalString (utcOffsetHundredths off))).data, c.isDigit = true) ∧
      utcOffsetHundredths off = off.natAbs * 100 / 3600 := by
  have hdatelen : (strftimeISO (endInstant s now)).length = 19 :=
    strftimeISO_length (endInstant s now) hy hmo hd heh hem (by simp [endInstant])
  have hhund : utcOffsetHundredths off ≤ 9999 := by
    unfold utcOffsetHundredths; omega
  have hdig : (decimalString (utcOffsetHundredths off)).length ≤ 4 :=
    decimalString_length_le 3 _ (by norm_num; omega)
  have hz4 : (zfill 4 (decimalString (utcOffsetHundredths off))).length = 4 :=
    zfill_length_of_le 4 _ hdig
  refine ⟨?_, ?_, hz4, zfill_digits 4 _ (decimalString_digits _), rfl⟩
  · unfold getEndDateOfSchedule
    rw [String.length_append, String.length_append, hdatelen, offsetSign_length off, hz4]
  · unfold getEndDateOfSchedule
    rw [String.data_append, String.data_append, List.append_assoc]
    have h19 : (19 : Nat) = ((strftimeISO (endInstant s now)).data).length := by
      rw [← stringMk_length]
      exact hdatelen.symm
    rw [h19, List.drop_left]
    unfold offsetSign
    split_ifs <;> rfl

/-- Witness for C4 (amended): at the half-hour offset +05:30 (19800
seconds) the output for the 09:00-17:00 schedule at Monday 10:00 is a
24-character string whose offset digits are exactly 4. -/
theorem claim4_witness :
    (getEndDateOfSchedule schedMon917 tMon1000 19800).length = 24 ∧
      (zfill 4 (decimalString (utcOffsetHundredths 19800))).length = 4 := by
  have h := claim4_offset_suffix_format schedMon917 tMon1000 19800 (by decide) (by decide)
    (by decide) (by decide) (by decide) (by decide)
  exact ⟨h.1, h.2.2.1⟩

/-- Same-day window 10:00-18:00 on Monday (overlaps `schedMon917`). -/
def schedMon1018 : Schedule := ⟨10, 0, 18, 0, some 1, false⟩

/-- Schedule with `weekday` unset (active every day), start 09:30. -/
def schedEveryday930 : Schedule := ⟨9, 30, 17, 0, none, false⟩

/-- Claim C6: the selection in `run` returns the first schedule in input
order for which `is_schedule_active` is true, and the normal outcome
`none` exactly when no schedule in the sequence is active (in particular
for the empty sequence). -/
theorem claim6_first_active_selection (l : List Schedule) (now : Instant) :
    (selectActive l now = none ↔ ∀ s ∈ l, isScheduleActive s now = false) ∧
      (∀ s, selectActive l now = some s →
        isScheduleActive s now = true ∧
          ∃ i : Nat, l[i]? = some s ∧
            ∀ j : Nat, j < i → ∀ t, l[j]? = some t → isScheduleActive t now = false) ∧
      (∀ (i : Nat) (s : Schedule), l[i]? = some s → isScheduleActive s now = true →
        (∀ j : Nat, j < i → ∀ t, l[j]? = some t → isScheduleActive t now = false) →
        selectActive l now = some s) := by
  induction l with
  | nil =>
    refine ⟨by simp [selectActive], by simp [selectActive], ?_⟩
    intro i s h
    simp at h
  | cons a rest ih =>
    obtain ⟨ih1, ih2, ih3⟩ := ih
    by_cases ha : isScheduleActive a now = true
    · have hsel : selectActive (a :: rest) now = some a := by
        simp [selectActive, List.find?, ha]
      refine ⟨?_, ?_, ?_⟩
      · rw [hsel]
        constructor
        · intro h; cases h
        · intro hall
          exact absurd (hall a (List.mem_cons_self a rest)) (by simp [ha])
      · intro s hs
        rw [hsel, Option.some.injEq] at hs
        subst hs
        exact ⟨ha, 0, by simp, fun j hj => absurd hj (by omega)⟩
      · intro i s hi hact hprev
        cases i with
        | zero => simp at hi; subst hi; exact hsel
        | succ i =>
          have := hprev 0 (by omega) a (by simp)
          rw [this] at ha
          cases ha
    · have ha' : isScheduleActive a now = false := by
        cases h : isScheduleActive a now
        · rfl
        · exact absurd h ha
      have hsel : selectActive (a :: rest) now = selectActive rest now := by
        simp [selectActive, List.find?, ha']
      refine ⟨?_, ?_, ?_⟩
      · rw [hsel, ih1]
        simp [List.forall_mem_cons, ha']
      · intro s hs
        rw [hsel] at hs
        obtain ⟨hact, i, hi, hprev⟩ := ih2 s hs
        refine ⟨hact, i + 1, by simpa using hi, ?_⟩
        intro j hj t ht
        cases j with
        | zero => simp at ht; subst ht; exact ha'
        | succ j =>
          simp only [List.getElem?_cons_succ] at ht
          exact hprev j (by omega) t ht
      · intro i s hi hact hprev
        rw [hsel]
        cases i with
        | zero => simp at hi; subst hi; exact absurd hact ha
        | succ i =>
          apply ih3 i s (by simpa using hi) hact
          intro j hj t ht
          exact hprev (j + 1) (by omega) t (by simpa using ht)

/-- Witness for C6: with the overlapping Monday windows 09:00-17:00 and
10:00-18:00 both active at Monday 10:00, the first is selected; the empty
sequence yields `none`. -/
theorem claim6_witness :
    selectActive [schedMon917, schedMon1018] tMon1000 = some schedMon917 ∧
      selectActive [] tMon1000 = none := by
  constructor
  · exact (claim6_first_active_selection [schedMon917, schedMon1018] tMon1000).2.2 0 schedMon917
      rfl (by decide) (fun j hj t ht => absurd hj (by omega))
  · exact (claim6_first_active_selection [] tMon1000).1.mpr (by simp)

/-- Claim C7: `expand` produces one (weekday, start hour, start minute)
tuple per applicable weekday in ascending order — exactly the seven
weekdays 1..7 when `weekday` is unset, the singleton otherwise — and a
sequence of schedules expands in input order with duplicates preserved
(expansion distributes over concatenation). -/
theorem claim7_trigger_expansion (s : Schedule) (l1 l2 : List Schedule) :
    (s.weekday = none →
      expandSchedule s =
        [(1, s.startHour, s.startMinute), (2, s.startHour, s.startMinute),
          (3, s.startHour, s.startMinute), (4, s.startHour, s.startMinute),
          (5, s.startHour, s.startMinute), (6, s.startHour, s.startMinute),
          (7, s.startHour, s.startMinute)]) ∧
      (∀ w, s.weekday = some w → expandSchedule s = [(w, s.startHour, s.startMinute)]) ∧
      expandAll (l1 ++ l2) = expandAll l1 ++ expandAll l2 := by
  refine ⟨?_, ?_, ?_⟩
  · intro h; simp [expandSchedule, scheduleWeekdays, h]
  · intro w h; simp [expandSchedule, scheduleWeekdays, h]
  · simp [expandAll]

/-- Witness for C7: the weekday-unset schedule expands to seven tuples,
and expanding the same schedule twice keeps both copies. -/
theorem claim7_witness :
    expandSchedule schedEveryday930 =
      [(1, 9, 30), (2, 9, 30), (3, 9, 30), (4, 9, 30), (5, 9, 30), (6, 9, 30), (7, 9, 30)] ∧
      expandAll ([schedEveryday930] ++ [schedEveryday930]) =
        expandAll [schedEveryday930] ++ expandAll [schedEveryday930] := by
  constructor
  · exact (claim7_trigger_expansion schedEveryday930 [] []).1 rfl
  · exact (claim7_trigger_expansion schedEveryday930 [schedEveryday930] [schedEveryday930]).2.2

/-- Counterexample to C8 as stated: two clock streams that agree on the
reading taken at the start of the pass lead the selection pass over the
same two schedules to different outcomes, so the pass does not reuse a
single clock reading for every schedule. -/
theorem claim8_counterexample :
    clkAdvancing 0 = clkFrozen 0 ∧
      selectActiveClk [schedTue917, schedMon917] clkAdvancing 0 ≠
        selectActiveClk [schedTue917, schedMon917] clkFrozen 0 :=
  ⟨rfl, by decide⟩

/-- Claim C8 (amended): each schedule's activation check performs its own
clock read; a pass over `l` consumes one fresh reading per schedule
checked, so its outcome depends on (at most) the first `l.length`
readings taken during the pass, not on a single shared reading. -/
theorem claim8_one_read_per_check (l : List Schedule) (c c' : Nat → Instant) (i : Nat)
    (h : ∀ k, k < l.length → c (i + k) = c' (i + k)) :
    selectActiveClk l c i = selectActiveClk l c' i := by
  induction l generalizing i with
  | nil => rfl
  | cons s rest ih =>
    have h0 : c i = c' i := by simpa using h 0 (by simp)
    simp only [selectActiveClk, h0]
    by_cases hact : isScheduleActive s (c' i)
    · simp [hact]
    · simp only [hact, if_false]
      apply ih
      intro k hk
      have hh := h (k + 1) (by simp; omega)
      rw [show i + 1 + k = i + (k + 1) by omega]
      exact hh

/-- Witness for C8 (amended): two pointwise-equal clock streams yield the
same pass outcome. -/
theorem claim8_witness :
    selectActiveClk [schedTue917, schedMon917] clkFrozen 0 =
      selectActiveClk [schedTue917, schedMon917] (fun _ => tMon0800) 0 :=
  claim8_one_read_per_check [schedTue917, schedMon917] clkFrozen (fun _ => tMon0800) 0
    (fun _ _ => rfl)

/-- Claim C9: on any input within the data model (hours in [0,23],
minutes in [0,59], weekday absent or in [1,7], `now` a valid civil
datetime), the `datetime(...)` constructions inside `is_schedule_active`
and `get_end_date_of_schedule` are in range, so neither operation raises
a domain error (and the trigger expansion is total by construction). -/
theorem claim9_no_domain_errors (s : Schedule) (now : Instant) (off : Int)
    (h1 : s.startHour ≤ 23) (h2 : s.startMinute ≤ 59) (h3 : s.endHour ≤ 23)
    (h4 : s.endMinute ≤ 59)
    (hw : ∀ w, s.weekday = some w → 1 ≤ w ∧ w ≤ 7)
    (hn : ValidInstant now) :
    isScheduleActiveChecked s now = some (isScheduleActive s now) ∧
      getEndDateOfScheduleChecked s now off = some (getEndDateOfSchedule s now off) := by
  obtain ⟨hy1, hy2, hm1, hm2, hd1, hd2, hh, hmi, hsec, hw1, hw2⟩ := hn
  have hstart : mkDatetime? now.year now.month now.day s.startHour s.startMinute 0
      now.isoWeekday = some ⟨now.year, now.month, now.day, s.startHour, s.startMinute, 0,
        now.isoWeekday⟩ := by
    unfold mkDatetime?
    rw [if_pos]
    exact ⟨hy1, hy2, hm1, hm2, hd1, hd2, h1, h2, by omega⟩
  have hend : mkDatetime? now.year now.month now.day s.endHour s.endMinute 0
      now.isoWeekday = some ⟨now.year, now.month, now.day, s.endHour, s.endMinute, 0,
        now.isoWeekday⟩ := by
    unfold mkDatetime?
    rw [if_pos]
    exact ⟨hy1, hy2, hm1, hm2, hd1, hd2, h3, h4, by omega⟩
  constructor
  · unfold isScheduleActiveChecked
    rw [hstart, hend]
  · unfold getEndDateOfScheduleChecked
    rw [hend]

/-- Witness for C9: both checked operations succeed on the 09:00-17:00
Monday schedule at Monday 10:00 with offset +05:30. -/
theorem claim9_witness :
    isScheduleActiveChecked schedMon917 tMon1000 = some (isScheduleActive schedMon917 tMon1000) ∧
      getEndDateOfScheduleChecked schedMon917 tMon1000 19800 =
        some (getEndDateOfSchedule schedMon917 tMon1000 19800) :=
  claim9_no_domain_errors schedMon917 tMon1000 19800 (by decide) (by decide) (by decide)
    (by decide) (by intro w h; injection h with h; omega) (by decide)

